import Mathlib

/-!
Formal model of the client engine in `libethereum/Client.cpp` of this
repository: the version gate (`VersionChecker`), the gas price oracle
(`BasicGasPricer::update`), the snapshot lock discipline, mining solution
submission (`Client::submitWork`), the queue drains
(`Client::syncBlockQueue`, `Client::syncTransactionQueue`), the reorg
handler (`Client::onChainChanged`) and the filter/watch registry
(`Client::noteChanged`).  Machine integers (`u256`) are modelled as `Nat`
with explicit reduction modulo `2 ^ 256` where the source computes in
`u256`.  Components whose implementation is not among the sources at hand
(the transaction queue, the RLP decoder) are modelled from the spec and
marked as such.
-/

namespace EthClient

/-- Startup action of the version gate (`WithExisting` in the source). -/
inductive WithExisting where
  | Trust
  | Verify
  | Kill
deriving DecidableEq

/-- Compiled-in expectations the on-disk status record is compared
against: `eth::c_protocolVersion`, `eth::c_minorProtocolVersion`,
`c_databaseVersion` and `CanonBlockChain::genesis().hash()`. -/
structure VersionConfig where
  protocolVersion : Nat
  minorProtocolVersion : Nat
  databaseVersion : Nat
  genesisHash : Nat
deriving DecidableEq

/-- Fields read out of the on-disk `status` record by
`VersionChecker::VersionChecker`.  `genesisHash` is `none` when the
record has only three items (`status.itemCount() > 3` is false). -/
structure StatusFields where
  protocolVersion : Nat
  minorProtocolVersion : Nat
  databaseVersion : Nat
  genesisHash : Option Nat
deriving DecidableEq

/-- Modelled from the spec: RLP decoding of the status file (the RLP
library is not among the sources at hand; the spec describes the record
as a length-prefixed sequence of unsigned integers and a hash).  The raw
content is `none` when the file is missing or not a decodable item list,
otherwise the list of item values.  Reading `status[0]`, `status[1]` or
`status[2]` throws — caught by the constructor as a parse failure — when
fewer than three items are present, while item 3 is read only when
`status.itemCount() > 3`. -/
def parseStatus : Option (List Nat) → Option StatusFields
  | none => none
  | some (p :: m :: d :: rest) => some ⟨p, m, d, rest.head?⟩
  | some _ => none

/-- `VersionChecker::VersionChecker`: the action chosen from the on-disk
status record.  Any read or parse failure yields `Kill`; a missing
genesis item defaults to our genesis hash. -/
def versionCheckerAction (cfg : VersionConfig) (raw : Option (List Nat)) : WithExisting :=
  match parseStatus raw with
  | none => WithExisting.Kill
  | some s =>
    let genesisHash := s.genesisHash.getD cfg.genesisHash
    if s.databaseVersion ≠ cfg.databaseVersion ∨ genesisHash ≠ cfg.genesisHash then
      WithExisting.Kill
    else if s.minorProtocolVersion ≠ cfg.minorProtocolVersion then
      WithExisting.Verify
    else
      WithExisting.Trust

/-- The version-gate decision table exactly as the spec words it, on the
database version, genesis hash and minor protocol version of a record
that carries all four fields; for comparison with `versionCheckerAction`. -/
def versionGateSpec (cfg : VersionConfig) (d g m : Nat) : WithExisting :=
  if d ≠ cfg.databaseVersion ∨ g ≠ cfg.genesisHash then WithExisting.Kill
  else if m ≠ cfg.minorProtocolVersion then WithExisting.Verify
  else WithExisting.Trust

/-- `c_syncMin` in `Client::syncBlockQueue`. -/
def c_syncMin : Nat := 1

/-- `c_syncMax` in `Client::syncBlockQueue`. -/
def c_syncMax : Nat := 100

/-- `c_targetDuration` in `Client::syncBlockQueue`, in seconds. -/
def c_targetDuration : ℚ := 1

/-- Adaptation of `m_syncAmount` at the end of `Client::syncBlockQueue`:
`elapsed` is the wall time of the batch in seconds (`boost::timer`);
`m_syncAmount` is unsigned, so `0.9` and `1.1` times it round down. -/
def nextSyncAmount (s : Nat) (elapsed : ℚ) : Nat :=
  if elapsed > c_targetDuration * (11 / 10) ∧ s > c_syncMin then
    max c_syncMin (s * 9 / 10)
  else if elapsed < c_targetDuration * (9 / 10) ∧ s < c_syncMax then
    min c_syncMax (s * 11 / 10 + 1)
  else s

/-- The three per-snapshot reader-writer locks (`x_preMine`, `x_working`,
`x_postMine`). -/
inductive SnapLock where
  | preMine
  | working
  | postMine
deriving DecidableEq

/-- Position of a lock in the documented hierarchy
`preMine → working → postMine`. -/
def lockRank : SnapLock → Nat
  | .preMine => 0
  | .working => 1
  | .postMine => 2

/-- Acquisition or release of a snapshot lock.  Shared and exclusive
acquisitions are not distinguished: the ordering discipline applies to
both. -/
inductive LockEvent where
  | acq (l : SnapLock)
  | rel (l : SnapLock)
deriving DecidableEq

/-- Checks a trace against the hierarchy, threading the multiset of held
locks: every acquisition must be of a lock ranked strictly above every
lock currently held. -/
def respectsOrder : List SnapLock → List LockEvent → Bool
  | _, [] => true
  | held, LockEvent.acq l :: es =>
      held.all (fun k => lockRank k < lockRank l) && respectsOrder (l :: held) es
  | held, LockEvent.rel l :: es => respectsOrder (held.erase l) es

/-- `Client::startedWorking`: write `preMine` (sync against the chain),
then under a read of `preMine` write `working` and `postMine` in turn. -/
def startedWorkingLockTrace : List LockEvent :=
  [.acq .preMine, .rel .preMine,
   .acq .preMine, .acq .working, .rel .working, .acq .postMine, .rel .postMine, .rel .preMine]

/-- `Client::doneWorking` is line for line the lock pattern of
`Client::startedWorking`. -/
def doneWorkingLockTrace : List LockEvent := startedWorkingLockTrace

/-- `Client::killChain`: `WriteGuard l(x_postMine); WriteGuard
l2(x_preMine); WriteGuard l3(x_working);` in a single scope, released in
reverse order at its end. -/
def killChainLockTrace : List LockEvent :=
  [.acq .postMine, .acq .preMine, .acq .working, .rel .working, .rel .preMine, .rel .postMine]

/-- `Client::clearPending` on its non-early-return path: a read of
`preMine` nested inside the write guard on `postMine`. -/
def clearPendingLockTrace : List LockEvent :=
  [.acq .postMine, .acq .preMine, .rel .preMine, .rel .postMine]

/-- `Client::submitWork`: write `working` (complete the mine); then read
`working` with a nested write of `postMine`. -/
def submitWorkLockTrace : List LockEvent :=
  [.acq .working, .rel .working, .acq .working, .acq .postMine, .rel .postMine, .rel .working]

/-- `Client::syncTransactionQueue`: write `working` (drain); read
`working` with a nested write of `postMine`; then read `postMine` for the
pending hashes. -/
def syncTransactionQueueLockTrace : List LockEvent :=
  [.acq .working, .rel .working,
   .acq .working, .acq .postMine, .rel .postMine, .rel .working,
   .acq .postMine, .rel .postMine]

/-- `Client::onChainChanged` on its roll-forward path: read `preMine`;
write `preMine`; write `working`; read `postMine` for the pending
transactions; then read `working` with a nested write of `postMine`. -/
def onChainChangedLockTrace : List LockEvent :=
  [.acq .preMine, .rel .preMine, .acq .preMine, .rel .preMine,
   .acq .working, .rel .working, .acq .postMine, .rel .postMine,
   .acq .working, .acq .postMine, .rel .postMine, .rel .working]

/-- `Client::rejigMining` when it commits: write `working`; then read
`working` with a nested write of `postMine`. -/
def rejigMiningLockTrace : List LockEvent :=
  [.acq .working, .rel .working, .acq .working, .acq .postMine, .rel .postMine, .rel .working]

/-- `Client::call`: a single read of `postMine`. -/
def callLockTrace : List LockEvent := [.acq .postMine, .rel .postMine]

/-- `Client::state(unsigned)`: a single read of `postMine`. -/
def stateFromPendingLockTrace : List LockEvent := [.acq .postMine, .rel .postMine]

/-- Every snapshot-lock trace of `Client.cpp` other than those of
`killChain` and `clearPending`. -/
def orderedLockTraces : List (List LockEvent) :=
  [startedWorkingLockTrace, doneWorkingLockTrace, submitWorkLockTrace,
   syncTransactionQueueLockTrace, onChainChangedLockTrace, rejigMiningLockTrace,
   callLockTrace, stateFromPendingLockTrace]

/-- Snapshot-and-queue state of the client as touched by
`Client::submitWork` and `Client::syncTransactionQueue`: the `working`
and `postMine` snapshots and the block queue (entries: serialized block
bytes paired with the self-generated mark of `BlockQueue::import`).  The
world-state type is a parameter; `preMine` is untouched by these two
operations. -/
structure MiningClient (α : Type) where
  working : α
  postMine : α
  blockQueue : List (Nat × Bool)
deriving DecidableEq

/-- `Client::submitWork`: `completeMine` stands for
`State::completeMine` on the `working` snapshot — Boolean success plus
the updated snapshot — and `blockData` for `State::blockData`, the
serialized completed block.  On failure it returns `false` having touched
nothing beyond `working`; on success it copies `working` into `postMine`,
places the block bytes into the block queue marked as self-generated, and
returns `true`. -/
def submitWork {α σ : Type} (completeMine : α → σ → Bool × α) (blockData : α → Nat)
    (c : MiningClient α) (sol : σ) : Bool × MiningClient α :=
  let r := completeMine c.working sol
  if r.1 then
    (true, { working := r.2, postMine := r.2, blockQueue := c.blockQueue ++ [(blockData r.2, true)] })
  else
    (false, { c with working := r.2 })

/-- `Client::syncTransactionQueue` restricted to the snapshot state:
`sync` stands for `State::sync(bc, tq, gp)` on `working`, returning the
updated snapshot and the list of new pending receipts.  With no receipts
the function returns early; otherwise it copies `working` into
`postMine`.  The subsequent filter appending, mining re-jig and host
notification touch no snapshot. -/
def syncTransactionQueue {α : Type} (sync : α → α × List Nat) (c : MiningClient α) :
    MiningClient α × List Nat :=
  let r := sync c.working
  if r.2.isEmpty then ({ c with working := r.1 }, r.2)
  else ({ c with working := r.1, postMine := r.1 }, r.2)

/-- A localized log entry delivered to a watch: either an ordinary entry
produced by an installed filter, or the `SpecialLogEntry` marker carrying
a hash, produced for the pseudo-filters. -/
inductive LocalisedLogEntry where
  | log (e : Nat)
  | special (h : Nat)
deriving DecidableEq

/-- `InstalledFilter`: its accumulated-changes buffer.  The filter
predicate plays no role in `Client::noteChanged` and is left out. -/
structure InstalledFilter where
  changes : List LocalisedLogEntry
deriving DecidableEq

/-- `ClientWatch`: the subscribed filter id and the pending changes to be
collected by the next poll. -/
structure ClientWatch where
  id : Nat
  changes : List LocalisedLogEntry
deriving DecidableEq

/-- The registry guarded by `x_filtersWatches`: `m_filters`,
`m_specialFilters` and `m_watches`, as association lists keyed by filter
id respectively watch id. -/
structure FiltersWatches where
  filters : List (Nat × InstalledFilter)
  specialFilters : List (Nat × List Nat)
  watches : List (Nat × ClientWatch)
deriving DecidableEq

/-- `Client::noteChanged`: for every watch whose filter id is in the
dirty set, append the filter's accumulated changes — or, for a
pseudo-filter, a special entry for each of its hashes — to the watch;
then clear every filter buffer and every pseudo-filter buffer, dirty or
not. -/
def noteChanged (dirty : List Nat) (st : FiltersWatches) : FiltersWatches where
  watches := st.watches.map fun kw =>
    if kw.2.id ∈ dirty then
      match st.filters.lookup kw.2.id, st.specialFilters.lookup kw.2.id with
      | some f, _ =>
        (kw.1, { kw.2 with changes := kw.2.changes ++ f.changes })
      | none, some hs =>
        (kw.1, { kw.2 with changes := kw.2.changes ++ hs.map LocalisedLogEntry.special })
      | none, none => kw
    else kw
  filters := st.filters.map fun p => (p.1, { changes := [] })
  specialFilters := st.specialFilters.map fun p => (p.1, [])

/-- A concrete registry holding one installed filter with a buffered
entry, one pseudo-filter with a buffered hash, and one watch. -/
def fwExample : FiltersWatches :=
  { filters := [(5, { changes := [LocalisedLogEntry.log 9] })],
    specialFilters := [(1, [7])],
    watches := [(0, { id := 5, changes := [] })] }

/-- `IfDropped` policy of `TransactionQueue::import`. -/
inductive IfDropped where
  | Ignore
  | Retry
deriving DecidableEq

/-- Modelled from the spec: the transaction queue — its implementation is
not among the sources at hand — as the set of queued transactions keyed
by hash together with the set of previously dropped hashes; transactions
are identified with their hashes. -/
structure TransactionQueue where
  known : List Nat
  dropped : List Nat
deriving DecidableEq

/-- Modelled from the spec: `TransactionQueue::import` refuses a
transaction already present, refuses a previously dropped one unless the
policy says retry, and otherwise enqueues it. -/
def TransactionQueue.importTx (q : TransactionQueue) (p : IfDropped) (t : Nat) :
    TransactionQueue :=
  if t ∈ q.known then q
  else if p = IfDropped.Ignore ∧ t ∈ q.dropped then q
  else { q with known := t :: q.known }

/-- Modelled from the spec: `TransactionQueue::drop` removes the
transaction and remembers its hash as dropped. -/
def TransactionQueue.drop (q : TransactionQueue) (t : Nat) : TransactionQueue :=
  { known := q.known.filter (fun x => decide (x ≠ t)), dropped := t :: q.dropped }

/-- `ImportRoute` as produced by `BlockChain::sync`: the new canonical
suffix (`ir.first`) and the orphaned suffix (`ir.second`). -/
structure ImportRoute where
  imported : List Nat
  dead : List Nat
deriving DecidableEq

/-- `Client::onChainChanged` restricted to the transaction queue: first
every transaction of every dead block is re-fed to the queue with the
retry-if-dropped policy, then every transaction of every freshly
canonical block is dropped.  `transactionsOf` stands for
`BlockChain::transactions` (equally `transactionHashes`) on a block hash.
The host notification, filter appending and `preMine` roll-forward that
follow touch no part of the queue. -/
def onChainChanged (transactionsOf : Nat → List Nat) (ir : ImportRoute)
    (q : TransactionQueue) : TransactionQueue :=
  let q1 := ir.dead.foldl
    (fun acc h => (transactionsOf h).foldl
      (fun qq t => qq.importTx IfDropped.Retry t) acc) q
  ir.imported.foldl
    (fun acc h => (transactionsOf h).foldl (fun qq t => qq.drop t) acc) q1

/-- Modulus of the source's `u256` arithmetic. -/
def u256Mod : Nat := 2 ^ 256

/-- Addition in `u256`. -/
def addM (a b : Nat) : Nat := (a + b) % u256Mod

/-- Multiplication in `u256`. -/
def mulM (a b : Nat) : Nat := (a * b) % u256Mod

/-- Subtraction in `u256`, wrapping around: `i.first - mean` in the
source wraps when the price lies below the mean, and the subsequent
squaring cancels the wrap modulo `2 ^ 256`. -/
def subM (a b : Nat) : Nat := (a + (u256Mod - b % u256Mod)) % u256Mod

/-- A block as seen by `BasicGasPricer::update`: its gas limit and, for
each of its transactions in order, the pair `(gasPrice, gasUsed)` fed to
`dist[tx.gasPrice()] += gu`.  A chain is the list of blocks from the
current head back to the genesis block. -/
structure GPBlock where
  gasLimit : Nat
  txs : List (Nat × Nat)
deriving DecidableEq

/-- `BasicGasPricer` state: `m_octiles` (nine entries) and
`m_gasPerBlock`. -/
structure BasicGasPricer where
  octiles : List Nat
  gasPerBlock : Nat
deriving DecidableEq

/-- Transactions of the up-to-1000-block window walked by
`BasicGasPricer::update`.  The source skips blocks whose transactions
root is the empty trie, which contribute nothing either way. -/
def gpWindowTxs (chain : List GPBlock) : List (Nat × Nat) :=
  ((chain.take 1000).map GPBlock.txs).flatten

/-- `total` in `BasicGasPricer::update`: the gas weight of the window.
Summing transaction by transaction agrees with summing the aggregated
`dist` map modulo `2 ^ 256`. -/
def gpTotal (chain : List GPBlock) : Nat :=
  (gpWindowTxs chain).foldl (fun a pg => addM a pg.2) 0

/-- `mean` in `BasicGasPricer::update`: gas-weighted mean price, with
`u256` accumulation and floor division. -/
def gpMean (chain : List GPBlock) : Nat :=
  ((gpWindowTxs chain).foldl (fun a pg => addM a (mulM pg.1 pg.2)) 0) / gpTotal chain

/-- `sdSquared` in `BasicGasPricer::update`: gas-weighted variance of
the price, with wrapping subtraction and floor division. -/
def gpSdSq (chain : List GPBlock) : Nat :=
  ((gpWindowTxs chain).foldl
    (fun a pg => addM a (mulM (mulM pg.2 (subM pg.1 (gpMean chain))) (subM pg.1 (gpMean chain))))
    0) / gpTotal chain

/-- Smallest key of the `dist` map (`dist.begin()->first`); the keys are
the observed gas prices, zero-weight ones included.  Zero on an empty
map, which `update` never queries. -/
def minKey : List Nat → Nat
  | [] => 0
  | p :: ps => ps.foldl min p

/-- Largest key of the `dist` map (`dist.rbegin()->first`). -/
def maxKey : List Nat → Nat
  | [] => 0
  | p :: ps => ps.foldl max p

/-- `BasicGasPricer::update`.  `gaussOct i mean sdSq` abstracts the
floating-point expression `u256(mean · quantile(gauss(1, max(0.01,
sd/mean)), i/8))` of the non-degenerate branch, which has no exact
shallow embedding; the claims at hand do not depend on its value.
`m_gasPerBlock` is set from the head block unconditionally; the octiles
are refilled only when the window carries gas weight: with nonzero
variance `octile[0]`/`octile[8]` are the extreme observed prices, with
zero variance every octile becomes `(i+1)·mean/5`. -/
def BasicGasPricer.update (gaussOct : Nat → Nat → Nat → Nat) (chain : List GPBlock)
    (s : BasicGasPricer) : BasicGasPricer :=
  let gasPerBlock := (chain.head?.map GPBlock.gasLimit).getD s.gasPerBlock
  if gpTotal chain = 0 then { s with gasPerBlock := gasPerBlock }
  else
    let prices := (gpWindowTxs chain).map Prod.fst
    let octiles :=
      if gpSdSq chain ≠ 0 then
        minKey prices
          :: (((List.range 7).map fun i => gaussOct (i + 1) (gpMean chain) (gpSdSq chain))
              ++ [maxKey prices])
      else
        (List.range 9).map fun i => mulM (i + 1) (gpMean chain) / 5
    { octiles := octiles, gasPerBlock := gasPerBlock }

/-- Claim C2: for a successfully parsed status record carrying all four
fields, the gate kills on a database-version or genesis-hash mismatch,
verifies on a minor-protocol-version mismatch, and trusts otherwise; an
unreadable status yields `Kill`. -/
theorem VersionChecker_gate_correct (cfg : VersionConfig) (p m d g : Nat) (rest : List Nat) :
    versionCheckerAction cfg (some (p :: m :: d :: g :: rest)) = versionGateSpec cfg d g m
      ∧ versionCheckerAction cfg none = WithExisting.Kill := by
  constructor
  · simp [versionCheckerAction, parseStatus, versionGateSpec]
  · rfl

/-- Claim C3 counterexample: a status record with only the three integer
fields — hence not containing all four fields of the documented layout —
is parsed successfully, and when the three values match the compiled-in
ones the gate answers `Trust`, not `Kill`. -/
theorem three_field_status_not_killed :
    versionCheckerAction ⟨10, 20, 30, 40⟩ (some [10, 20, 30]) ≠ WithExisting.Kill := by
  decide

/-- Claim C3 (amended): a missing or undecodable status file, or one with
fewer than three items, is treated as `Kill`; a record carrying exactly
the three integer fields parses successfully, its genesis hash defaulting
to the canonical one. -/
theorem status_parse_failure_kill_amended (cfg : VersionConfig) (items : List Nat)
    (h : items.length < 3) :
    versionCheckerAction cfg none = WithExisting.Kill
      ∧ versionCheckerAction cfg (some items) = WithExisting.Kill
      ∧ ∀ p m d : Nat, versionCheckerAction cfg (some [p, m, d])
          = versionCheckerAction cfg (some [p, m, d, cfg.genesisHash]) := by
  refine ⟨rfl, ?_, ?_⟩
  · match items with
    | [] => rfl
    | [_] => rfl
    | [_, _] => rfl
    | _ :: _ :: _ :: _ =>
      simp only [List.length_cons] at h
      omega
  · intro p m d
    simp [versionCheckerAction, parseStatus]

/-- Instantiation of `status_parse_failure_kill_amended` at a two-item
status record. -/
theorem status_parse_failure_kill_amended_witness :
    versionCheckerAction ⟨10, 20, 30, 40⟩ (some [10, 20]) = WithExisting.Kill :=
  (status_parse_failure_kill_amended ⟨10, 20, 30, 40⟩ [10, 20] (by decide)).2.1

/-- Claim C9: above 1.1 s the batch size shrinks to `max 1 (9·s/10)`,
below 0.9 s it grows to `min 100 (11·s/10 + 1)`, and from any value in
`[1, 100]` it stays in `[1, 100]`. -/
theorem syncAmount_adapt_correct (s : Nat) (e : ℚ) (h1 : 1 ≤ s) (h2 : s ≤ 100) :
    (e > 11 / 10 → nextSyncAmount s e = max 1 (s * 9 / 10))
      ∧ (e < 9 / 10 → nextSyncAmount s e = min 100 (s * 11 / 10 + 1))
      ∧ 1 ≤ nextSyncAmount s e ∧ nextSyncAmount s e ≤ 100 := by
  unfold nextSyncAmount c_syncMin c_syncMax c_targetDuration
  split_ifs with hA hB
  · refine ⟨fun _ => rfl, fun he => absurd hA.1 (by push_neg; linarith), ?_, ?_⟩ <;> omega
  · refine ⟨fun he => absurd hB.1 (by push_neg; linarith), fun _ => rfl, ?_, ?_⟩ <;> omega
  · refine ⟨?_, ?_, h1, h2⟩
    · intro he
      have hs : s ≤ 1 := by
        by_contra hs1
        exact hA ⟨by linarith, by omega⟩
      omega
    · intro he
      have hs : 100 ≤ s := by
        by_contra hs1
        exact hB ⟨by linarith, by omega⟩
      omega

/-- Instantiation of `syncAmount_adapt_correct` at a slow 2 s batch from
a batch size of 50. -/
theorem syncAmount_adapt_correct_witness :
    nextSyncAmount 50 2 = max 1 (50 * 9 / 10)
      ∧ 1 ≤ nextSyncAmount 50 2 ∧ nextSyncAmount 50 2 ≤ 100 := by
  have h := syncAmount_adapt_correct 50 2 (by norm_num) (by norm_num)
  exact ⟨h.1 (by norm_num), h.2.2⟩

/-- Claim C1 counterexample: `Client::killChain` acquires `preMine` — and
then `working` — while already holding `postMine`, violating the
`preMine → working → postMine` acquisition order. -/
theorem killChain_violates_lock_order :
    respectsOrder [] killChainLockTrace = false := by decide

/-- Claim C1 (amended): every snapshot-lock trace of the client respects
the `preMine → working → postMine` hierarchy except two: `killChain`,
which acquires `postMine`, then `preMine`, then `working`, and
`clearPending`, which acquires `preMine` while holding `postMine`. -/
theorem lock_order_amended :
    orderedLockTraces.all (respectsOrder []) = true
      ∧ respectsOrder [] killChainLockTrace = false
      ∧ respectsOrder [] clearPendingLockTrace = false := by decide

/-- Claim C4: when `completeMine` fails, `submitWork` answers `false`
with `postMine` and the block queue untouched; when it succeeds,
`submitWork` answers `true`, `postMine` equals the completed `working`,
and the serialized block bytes sit at the end of the block queue marked
as self-generated. -/
theorem submitWork_cases {α σ : Type} (completeMine : α → σ → Bool × α)
    (blockData : α → Nat) (c : MiningClient α) (sol : σ) :
    ((submitWork completeMine blockData c sol).1 = false →
        (submitWork completeMine blockData c sol).2.postMine = c.postMine
          ∧ (submitWork completeMine blockData c sol).2.blockQueue = c.blockQueue)
      ∧ ((submitWork completeMine blockData c sol).1 = true →
        (submitWork completeMine blockData c sol).2.postMine
            = (submitWork completeMine blockData c sol).2.working
          ∧ (submitWork completeMine blockData c sol).2.blockQueue
            = c.blockQueue
                ++ [(blockData (submitWork completeMine blockData c sol).2.working, true)]) := by
  unfold submitWork
  rcases h : (completeMine c.working sol).1 <;> simp [h]

/-- Instantiation of `submitWork_cases` on a failing and on a succeeding
`completeMine` over `Nat` world states. -/
theorem submitWork_cases_witness :
    (submitWork (fun (w _ : Nat) => (false, w)) (fun w => w) ⟨1, 2, []⟩ 5).2.postMine = 2
      ∧ (submitWork (fun (w s : Nat) => (true, w + s)) (fun w => w) ⟨1, 2, []⟩ 5).2.blockQueue
        = [] ++ [((submitWork (fun (w s : Nat) => (true, w + s)) (fun w => w)
            ⟨1, 2, []⟩ 5).2.working, true)] :=
  ⟨((submitWork_cases (fun (w _ : Nat) => (false, w)) (fun w => w) ⟨1, 2, []⟩ 5).1 rfl).1,
   ((submitWork_cases (fun (w s : Nat) => (true, w + s)) (fun w => w) ⟨1, 2, []⟩ 5).2 rfl).2⟩

/-- Claim C5: when the drain produces receipts, `postMine` equals
`working` immediately afterwards; when the receipt list is empty the
function returns early and `postMine` is untouched. -/
theorem syncTransactionQueue_postMine {α : Type} (sync : α → α × List Nat)
    (c : MiningClient α) :
    ((syncTransactionQueue sync c).2 ≠ [] →
        (syncTransactionQueue sync c).1.postMine = (syncTransactionQueue sync c).1.working)
      ∧ ((syncTransactionQueue sync c).2 = [] →
        (syncTransactionQueue sync c).1.postMine = c.postMine) := by
  unfold syncTransactionQueue
  rcases h : (sync c.working).2 with _ | ⟨a, l⟩ <;> simp [h]

/-- Instantiation of `syncTransactionQueue_postMine` on a drain producing
one receipt and on a drain producing none. -/
theorem syncTransactionQueue_postMine_witness :
    (syncTransactionQueue (fun (w : Nat) => (w + 1, [3])) ⟨1, 2, []⟩).1.postMine
        = (syncTransactionQueue (fun (w : Nat) => (w + 1, [3])) ⟨1, 2, []⟩).1.working
      ∧ (syncTransactionQueue (fun (w : Nat) => (w + 1, [])) ⟨1, 2, []⟩).1.postMine = 2 :=
  ⟨(syncTransactionQueue_postMine (fun (w : Nat) => (w + 1, [3])) ⟨1, 2, []⟩).1 (by decide),
   (syncTransactionQueue_postMine (fun (w : Nat) => (w + 1, [])) ⟨1, 2, []⟩).2 rfl⟩

/-- Membership in the queue after one retry-policy import: the new
transaction joins the queue, everything present stays. -/
theorem mem_known_importTx_retry (q : TransactionQueue) (t u : Nat) :
    u ∈ (q.importTx IfDropped.Retry t).known ↔ u ∈ q.known ∨ u = t := by
  unfold TransactionQueue.importTx
  split_ifs with h1 h2
  · exact ⟨Or.inl, fun h => h.elim id fun he => he ▸ h1⟩
  · exact absurd h2.1 (by decide)
  · simp [List.mem_cons, or_comm]

/-- Membership in the queue after one drop: the dropped hash leaves,
everything else stays. -/
theorem mem_known_drop (q : TransactionQueue) (t u : Nat) :
    u ∈ (q.drop t).known ↔ u ∈ q.known ∧ u ≠ t := by
  simp [TransactionQueue.drop, List.mem_filter]

/-- Membership after retry-importing a whole list of transactions. -/
theorem mem_known_importFold (ts : List Nat) (q : TransactionQueue) (u : Nat) :
    u ∈ (ts.foldl (fun qq t => qq.importTx IfDropped.Retry t) q).known
      ↔ u ∈ q.known ∨ u ∈ ts := by
  induction ts generalizing q with
  | nil => simp
  | cons a l ih =>
    simp only [List.foldl_cons, ih, mem_known_importTx_retry, List.mem_cons]
    tauto

/-- Membership after dropping a whole list of transactions. -/
theorem mem_known_dropFold (ts : List Nat) (q : TransactionQueue) (u : Nat) :
    u ∈ (ts.foldl TransactionQueue.drop q).known ↔ u ∈ q.known ∧ u ∉ ts := by
  induction ts generalizing q with
  | nil => simp
  | cons a l ih =>
    simp only [List.foldl_cons, ih, mem_known_drop, List.mem_cons]
    tauto

/-- Membership after the dead-block phase of `onChainChanged`: the
transactions of every dead block join the queue. -/
theorem mem_known_importBlocks (txsOf : Nat → List Nat) (hs : List Nat)
    (q : TransactionQueue) (u : Nat) :
    u ∈ (hs.foldl (fun acc h => (txsOf h).foldl
          (fun qq t => qq.importTx IfDropped.Retry t) acc) q).known
      ↔ u ∈ q.known ∨ ∃ h ∈ hs, u ∈ txsOf h := by
  induction hs generalizing q with
  | nil => simp
  | cons a l ih =>
    simp only [List.foldl_cons, ih, mem_known_importFold, List.mem_cons]
    constructor
    · rintro (⟨h | h⟩ | ⟨h, hh, hu⟩)
      · exact Or.inl h
      · exact Or.inr ⟨a, Or.inl rfl, h⟩
      · exact Or.inr ⟨h, Or.inr hh, hu⟩
    · rintro (h | ⟨h, hh | hh, hu⟩)
      · exact Or.inl (Or.inl h)
      · exact Or.inl (Or.inr (hh ▸ hu))
      · exact Or.inr ⟨h, hh, hu⟩

/-- Membership after the canonical-block phase of `onChainChanged`: the
transactions of every freshly canonical block leave the queue. -/
theorem mem_known_dropBlocks (txsOf : Nat → List Nat) (hs : List Nat)
    (q : TransactionQueue) (u : Nat) :
    u ∈ (hs.foldl (fun acc h => (txsOf h).foldl
          (fun qq t => qq.drop t) acc) q).known
      ↔ u ∈ q.known ∧ ∀ h ∈ hs, u ∉ txsOf h := by
  induction hs generalizing q with
  | nil => simp
  | cons a l ih =>
    have hfold : ∀ qq : TransactionQueue,
        (txsOf a).foldl (fun qq t => qq.drop t) qq = (txsOf a).foldl TransactionQueue.drop qq := by
      intro qq; rfl
    simp only [List.foldl_cons, ih, hfold, mem_known_dropFold, List.mem_cons]
    constructor
    · rintro ⟨⟨h, ha⟩, hl⟩
      refine ⟨h, ?_⟩
      rintro k (rfl | hk)
      · exact ha
      · exact hl k hk
    · rintro ⟨h, hall⟩
      exact ⟨⟨h, hall a (Or.inl rfl)⟩, fun k hk => hall k (Or.inr hk)⟩

/-- Claim C6: a transaction of a freshly canonical block is no longer in
the queue after `onChainChanged`; a transaction of a dead block that is
on no freshly canonical block is in the queue after `onChainChanged`.
In particular a transaction on both a dead and a canonical block ends up
out of the queue. -/
theorem onChainChanged_reorg_conservation (txsOf : Nat → List Nat) (ir : ImportRoute)
    (q : TransactionQueue) (t : Nat) :
    ((∃ h ∈ ir.imported, t ∈ txsOf h) → t ∉ (onChainChanged txsOf ir q).known)
      ∧ ((∃ h ∈ ir.dead, t ∈ txsOf h) → (∀ h ∈ ir.imported, t ∉ txsOf h) →
          t ∈ (onChainChanged txsOf ir q).known) := by
  unfold onChainChanged
  constructor
  · rintro ⟨h, hh, ht⟩ hmem
    rw [mem_known_dropBlocks] at hmem
    exact hmem.2 h hh ht
  · intro hd hni
    rw [mem_known_dropBlocks]
    exact ⟨(mem_known_importBlocks txsOf ir.dead q t).mpr (Or.inr hd), hni⟩

/-- Instantiation of `onChainChanged_reorg_conservation` on a one-block
reorg: block 1 with transaction 1 dies, block 2 with transaction 2
becomes canonical. -/
theorem onChainChanged_reorg_conservation_witness :
    2 ∉ (onChainChanged (fun h => [h]) ⟨[2], [1]⟩ ⟨[], []⟩).known
      ∧ 1 ∈ (onChainChanged (fun h => [h]) ⟨[2], [1]⟩ ⟨[], []⟩).known :=
  ⟨(onChainChanged_reorg_conservation (fun h => [h]) ⟨[2], [1]⟩ ⟨[], []⟩ 2).1 (by decide),
   (onChainChanged_reorg_conservation (fun h => [h]) ⟨[2], [1]⟩ ⟨[], []⟩ 1).2
      (by decide) (by decide)⟩

/-- Claim C10: after `noteChanged` with any dirty set, every installed
filter's buffer and every pseudo-filter's buffer is empty, and every
watch of a filter outside the dirty set is exactly as before — its
filter's discarded buffer reached no watch. -/
theorem noteChanged_clears_all (dirty : List Nat) (st : FiltersWatches) :
    (∀ p ∈ (noteChanged dirty st).filters, p.2.changes = [])
      ∧ (∀ p ∈ (noteChanged dirty st).specialFilters, p.2 = [])
      ∧ ∀ p ∈ (noteChanged dirty st).watches, p.2.id ∉ dirty → p ∈ st.watches := by
  refine ⟨?_, ?_, ?_⟩
  · intro p hp
    simp only [noteChanged, List.mem_map] at hp
    obtain ⟨r, hr, rfl⟩ := hp
    rfl
  · intro p hp
    simp only [noteChanged, List.mem_map] at hp
    obtain ⟨r, hr, rfl⟩ := hp
    rfl
  · intro p hp hid
    simp only [noteChanged, List.mem_map] at hp
    obtain ⟨kw, hkw, rfl⟩ := hp
    by_cases h : kw.2.id ∈ dirty
    · exfalso
      apply hid
      rcases hf : st.filters.lookup kw.2.id with _ | f
      · rcases hs : st.specialFilters.lookup kw.2.id with _ | hs2
        · simp [h, hf, hs]
        · simp [h, hf, hs]
      · simp [h, hf]
    · simpa [h] using hkw

/-- Instantiation of `noteChanged_clears_all` on `fwExample` with dirty
set `[1]`: the installed filter's buffer is cleared even though filter 5
is not dirty, and its watch is untouched. -/
theorem noteChanged_clears_all_witness :
    ((5 : Nat), ({ changes := [] } : InstalledFilter)).2.changes = ([] : List LocalisedLogEntry)
      ∧ ((0 : Nat), ({ id := 5, changes := [] } : ClientWatch)) ∈ fwExample.watches :=
  ⟨(noteChanged_clears_all [1] fwExample).1 (5, { changes := [] }) (by decide),
   (noteChanged_clears_all [1] fwExample).2.2 (0, { id := 5, changes := [] })
      (by decide) (by decide)⟩

/-- Claim C7 counterexample: on a chain whose only transaction pays gas
price 5 with weight 10 the variance is zero, so `update` fills
`octile[0]` with `mean/5 = 1`, not with the minimum observed price 5. -/
theorem update_octile0_min_cex :
    (BasicGasPricer.update (fun _ _ _ => 0) [⟨100, [(5, 10)]⟩]
        ⟨List.replicate 9 0, 0⟩).octiles.head?
      ≠ some (minKey ((gpWindowTxs [⟨100, [(5, 10)]⟩]).map Prod.fst)) := by
  decide

/-- Claim C7 (amended): whenever the window carries gas weight, if the
weighted variance is nonzero then `octile[0]` is the minimum and
`octile[8]` the maximum observed gas price, while if the variance is
zero every octile — the first and last included — is `(i+1)·mean/5`. -/
theorem update_octiles_amended (g : Nat → Nat → Nat → Nat) (chain : List GPBlock)
    (s : BasicGasPricer) (h : gpTotal chain ≠ 0) :
    (gpSdSq chain ≠ 0 →
        (BasicGasPricer.update g chain s).octiles.head?
            = some (minKey ((gpWindowTxs chain).map Prod.fst))
          ∧ (BasicGasPricer.update g chain s).octiles.getLast?
            = some (maxKey ((gpWindowTxs chain).map Prod.fst)))
      ∧ (gpSdSq chain = 0 →
        (BasicGasPricer.update g chain s).octiles
          = (List.range 9).map fun i => mulM (i + 1) (gpMean chain) / 5) := by
  constructor
  · intro hsd
    unfold BasicGasPricer.update
    rw [if_neg h]
    simp only [if_pos hsd]
    refine ⟨rfl, ?_⟩
    rw [List.getLast?_cons, List.getLast?_append]
    rfl
  · intro hsd
    unfold BasicGasPricer.update
    rw [if_neg h]
    simp [hsd]

/-- Instantiation of `update_octiles_amended` on a window with prices 5
and 7, each of weight 10: the variance is nonzero and the first and last
octiles are the extreme prices. -/
theorem update_octiles_amended_witness :
    (BasicGasPricer.update (fun _ _ _ => 0) [⟨100, [(5, 10), (7, 10)]⟩]
        ⟨List.replicate 9 0, 0⟩).octiles.head?
      = some (minKey ((gpWindowTxs [⟨100, [(5, 10), (7, 10)]⟩]).map Prod.fst)) :=
  ((update_octiles_amended (fun _ _ _ => 0) [⟨100, [(5, 10), (7, 10)]⟩]
      ⟨List.replicate 9 0, 0⟩ (by decide)).1 (by decide)).1

/-- Claim C8 counterexample: on a chain with no gas used, `update` still
overwrites `m_gasPerBlock` with the head block's gas limit, so the
oracle's state changes. -/
theorem update_zero_weight_cex :
    BasicGasPricer.update (fun _ _ _ => 0) [⟨123, []⟩] ⟨List.replicate 9 0, 0⟩
      ≠ ⟨List.replicate 9 0, 0⟩ := by
  decide

/-- Claim C8 (amended): with zero total gas weight the octiles are left
unchanged, but `m_gasPerBlock` is set to the head block's gas limit. -/
theorem update_zero_weight_amended (g : Nat → Nat → Nat → Nat) (chain : List GPBlock)
    (s : BasicGasPricer) (h : gpTotal chain = 0) :
    (BasicGasPricer.update g chain s).octiles = s.octiles
      ∧ (BasicGasPricer.update g chain s).gasPerBlock
        = (chain.head?.map GPBlock.gasLimit).getD s.gasPerBlock := by
  unfold BasicGasPricer.update
  rw [if_pos h]
  exact ⟨rfl, rfl⟩

/-- Instantiation of `update_zero_weight_amended` on a one-block chain
without transactions. -/
theorem update_zero_weight_amended_witness :
    (BasicGasPricer.update (fun _ _ _ => 0) [⟨123, []⟩]
        ⟨List.replicate 9 0, 0⟩).octiles = List.replicate 9 0 :=
  (update_zero_weight_amended (fun _ _ _ => 0) [⟨123, []⟩]
      ⟨List.replicate 9 0, 0⟩ (by decide)).1

end EthClient
